import Mathlib

/-!
Shallow embedding of the browser-side export pipeline of SlideStreamAI
(src/App.tsx, `handleExportBrowser` and the data model in src/types.ts).

Modelling conventions:
* JavaScript `number` arithmetic on the quantities occurring here is modelled
  exactly: integer-valued quantities as `Nat`/`Int`, fractional ones as `Rat`.
* The asynchronous export routine is modelled as a pure interpreter that
  produces the ordered list of observable events (state updates, canvas
  draws, audio playback waits, timer waits, recorder operations), a final
  outcome, and the final values of the state fields the routine writes.
* `await new Promise((res) => { img.onload = res; })` registers only a
  `load` handler, so an image whose `load` event never fires suspends the
  async function forever: this is modelled by the `Outcome.hangs` result,
  which carries the position of the offending slide in processing order.
* `AudioBuffer` is a browser platform type; only the fields the repository
  reads are modelled.  Playing a buffer and awaiting its `ended` event is
  recorded as the pair of events `startAudio buf`, `waitAudioEnd buf`
  (the wait resolves at the natural end of playback, not via a timer).
-/

set_option maxRecDepth 8192

namespace SlideStream

/-- Aspect ratio options, from src/types.ts
(`type AspectRatio = '16:9' | '9:16' | '1:1' | '4:3'`). -/
inductive AspectRatio where
  | r16x9
  | r9x16
  | r1x1
  | r4x3
deriving DecidableEq, Repr

/-- Decoded narration audio; abstraction of the browser `AudioBuffer`
(sample rate in Hz, length in sample frames, channel count). -/
structure AudioBuffer where
  sampleRate : Nat
  length : Nat
  numberOfChannels : Nat
deriving DecidableEq, Repr

/-- One slide, from src/types.ts (`interface SlideData`). -/
structure SlideData where
  index : Int
  image : String
  text : String
deriving DecidableEq, Repr

/-- One narration segment, from src/types.ts (`interface NarrationSegment`);
`audioBuffer` is optional. -/
structure NarrationSegment where
  slideIndex : Int
  script : String
  audioBuffer : Option AudioBuffer
deriving DecidableEq, Repr

/-- The fields of src/types.ts `AppState` that `handleExportBrowser` reads
or writes. -/
structure AppState where
  slides : List SlideData
  narrations : List NarrationSegment
  aspectRatio : AspectRatio
  resolutionScale : Nat
  isExporting : Bool
  progress : Nat
  error : Option String
deriving DecidableEq, Repr

/-- Base canvas dimensions per aspect ratio, from the `switch` in
src/App.tsx lines 155-161 (the `default` branch covers `'16:9'`). -/
def baseDims : AspectRatio → Nat × Nat
  | AspectRatio.r9x16 => (720, 1280)
  | AspectRatio.r1x1 => (1080, 1080)
  | AspectRatio.r4x3 => (1024, 768)
  | AspectRatio.r16x9 => (1280, 720)

/-- Output canvas resolution: base dimensions multiplied by the resolution
scale (src/App.tsx lines 162-163). -/
def canvasDims (ar : AspectRatio) (scale : Nat) : Nat × Nat :=
  ((baseDims ar).1 * scale, (baseDims ar).2 * scale)

/-- `const targetBitrate = 12000000 * state.resolutionScale * state.resolutionScale`
(src/App.tsx line 177). -/
def targetBitrate (scale : Nat) : Nat :=
  12000000 * scale * scale

/-- `Math.min(targetBitrate, 100000000)` (src/App.tsx line 178). -/
def videoBitsPerSecond (scale : Nat) : Nat :=
  min (targetBitrate scale) 100000000

/-- The string value of an `AspectRatio`, as written in src/types.ts. -/
def aspectRatioString : AspectRatio → String
  | AspectRatio.r16x9 => "16:9"
  | AspectRatio.r9x16 => "9:16"
  | AspectRatio.r1x1 => "1:1"
  | AspectRatio.r4x3 => "4:3"

/-- JavaScript `s.replace(':', 'x')` replaces the first occurrence of `':'`
with `'x'`; character-list worker. -/
def replaceFirstColon : List Char → List Char
  | [] => []
  | c :: cs => if c = ':' then 'x' :: cs else c :: replaceFirstColon cs

/-- JavaScript `s.replace(':', 'x')` on strings. -/
def jsReplaceColon (s : String) : String :=
  ⟨replaceFirstColon s.data⟩

/-- The download filename assembled in `recorder.onstop`
(src/App.tsx line 193):
`SlideStream_Concatenated_<ar.replace(':','x')>_<scale>x_<Date.now>.webm`. -/
def exportFilename (ar : AspectRatio) (scale : Nat) (timeMs : Nat) : String :=
  "SlideStream_Concatenated_" ++ jsReplaceColon (aspectRatioString ar) ++ "_" ++
    toString scale ++ "x_" ++ toString timeMs ++ ".webm"

/-- Uniform letterbox scale factor
`Math.min(canvas.width / img.width, canvas.height / img.height)`
(src/App.tsx line 219). -/
def fitScale (cw ch iw ih : Nat) : ℚ :=
  min ((cw : ℚ) / (iw : ℚ)) ((ch : ℚ) / (ih : ℚ))

/-- One painted frame: the letterbox fill (`fillStyle`/`fillRect`) followed
by the centered, uniformly scaled image (`drawImage`).  The fill is issued
before the image draw (src/App.tsx lines 216-222). -/
structure DrawOp where
  fillStyle : String
  fillX : ℚ
  fillY : ℚ
  fillW : ℚ
  fillH : ℚ
  imgX : ℚ
  imgY : ℚ
  imgW : ℚ
  imgH : ℚ
deriving DecidableEq, Repr

/-- The frame renderer for one slide image of natural size `iw × ih` on a
`cw × ch` canvas (src/App.tsx lines 216-222). -/
def drawOp (cw ch iw ih : Nat) : DrawOp :=
  { fillStyle := "#0f172a"
    fillX := 0
    fillY := 0
    fillW := (cw : ℚ)
    fillH := (ch : ℚ)
    imgX := (cw : ℚ) / 2 - ((iw : ℚ) / 2) * fitScale cw ch iw ih
    imgY := (ch : ℚ) / 2 - ((ih : ℚ) / 2) * fitScale cw ch iw ih
    imgW := (iw : ℚ) * fitScale cw ch iw ih
    imgH := (ih : ℚ) * fitScale cw ch iw ih }

/-- Observable events of one export run, in order. -/
inductive Event where
  | setProgress (percent : Nat)
  | recorderStart (bitrateBitsPerSec : Nat) (fps : Nat)
  | draw (op : DrawOp)
  | startAudio (buf : AudioBuffer)
  | waitAudioEnd (buf : AudioBuffer)
  | waitTimerMs (ms : Nat)
  | recorderStop
deriving DecidableEq, Repr

/-- Environment of one export run: for each image source string, the natural
dimensions delivered by its `load` event (`none` when `load` never fires),
whether `canvas.getContext('2d')` succeeds, and the clock value
`new Date().getTime()` observed in `recorder.onstop`. -/
structure Env where
  imgDims : String → Option (Nat × Nat)
  ctxOk : Bool
  now : Nat

/-- `Math.floor((i / n) * 100)` (src/App.tsx line 209), with JavaScript
number arithmetic modelled exactly over `Rat`. -/
def progressAt (i n : Nat) : Nat :=
  ⌊((i : ℚ) / (n : ℚ)) * 100⌋₊

/-- The wait performed for one slide after its frame is drawn
(src/App.tsx lines 207 and 225-238): look up the first narration whose
`slideIndex` equals the slide's index (`Array.prototype.find`); if it has a
decoded buffer, start playback and await its `ended` event; otherwise wait
on a 3000 ms timer. -/
def slideWaitEvents (narrs : List NarrationSegment) (idx : Int) : List Event :=
  match narrs.find? (fun seg => seg.slideIndex == idx) with
  | some seg =>
    match seg.audioBuffer with
    | some buf => [Event.startAudio buf, Event.waitAudioEnd buf]
    | none => [Event.waitTimerMs 3000]
  | none => [Event.waitTimerMs 3000]

/-- The sequential per-slide loop (src/App.tsx lines 205-239), processing
the remaining slides starting at loop counter `i` (`n` is the total slide
count).  Returns the emitted events and, when some slide's image `load`
event never fires, the position at which the loop suspends forever (the
progress update for that slide has already been issued; its frame is never
drawn). -/
def processSlides (env : Env) (narrs : List NarrationSegment) (cw ch n : Nat) :
    List SlideData → Nat → List Event × Option Nat
  | [], _ => ([], none)
  | sl :: rest, i =>
    match env.imgDims sl.image with
    | none => ([Event.setProgress (progressAt i n)], some i)
    | some (iw, ih) =>
      let r := processSlides env narrs cw ch n rest (i + 1)
      (Event.setProgress (progressAt i n) :: Event.draw (drawOp cw ch iw ih) ::
        (slideWaitEvents narrs sl.index ++ r.1), r.2)

/-- The last value written by a `setProgress` event, starting from `p0`. -/
def finalProgressOf (p0 : Nat) (evts : List Event) : Nat :=
  evts.foldl (fun p e => match e with | Event.setProgress q => q | _ => p) p0

/-- `[...state.slides].sort((a, b) => a.index - b.index)`
(src/App.tsx line 203): sort by index ascending.  JavaScript
`Array.prototype.sort` is a stable sort, and a stable sort for a fixed
total comparison is unique, so it is modelled by a stable sort
(`List.insertionSort`) with the comparator's order. -/
def sortSlides (slides : List SlideData) : List SlideData :=
  slides.insertionSort (fun a b => a.index ≤ b.index)

/-- How one export run ends. -/
inductive Outcome where
  | noOp
  | hangs (pos : Nat)
  | errored (msg : String)
  | completed (filename : String)
deriving DecidableEq, Repr

/-- Result of one export run: outcome, ordered event trace, final state. -/
structure ExportRun where
  outcome : Outcome
  events : List Event
  final : AppState
deriving DecidableEq, Repr

/-- The fixed user-facing error string set by the `catch` block
(src/App.tsx line 248). -/
def exportErrorMessage : String :=
  "동영상 녹화 중 오류가 발생했습니다. 브라우저 탭이 백그라운드에 있으면 중단될 수 있습니다."

/-- Shallow embedding of `handleExportBrowser` (src/App.tsx lines 143-252).

* Guard (line 144): with zero slides or zero narrations the function
  returns before any state update or allocation.
* Line 145 sets `isExporting := true, progress := 0` (it does not clear
  `error`).
* If `getContext('2d')` returns null (line 166) the thrown error reaches
  the `catch` block: the fixed message is stored and `isExporting` is
  cleared.
* Otherwise the recorder is started and the loop of `processSlides` runs.
  If some image's `load` event never fires the run suspends forever
  (`Outcome.hangs`): `recorder.onstop` never fires, `isExporting` stays
  true and `error` is untouched.
* After a full pass, `recorder.stop()` leads to `recorder.onstop`, which
  offers the file under `exportFilename` and clears `isExporting`. -/
def handleExportBrowser (env : Env) (s : AppState) : ExportRun :=
  if s.slides.length = 0 ∨ s.narrations.length = 0 then
    { outcome := Outcome.noOp, events := [], final := s }
  else
    let s1 : AppState := { s with isExporting := true, progress := 0 }
    if env.ctxOk then
      let cw := (canvasDims s.aspectRatio s.resolutionScale).1
      let ch := (canvasDims s.aspectRatio s.resolutionScale).2
      let sorted := sortSlides s.slides
      let r := processSlides env s.narrations cw ch sorted.length sorted 0
      match r.2 with
      | some i =>
        { outcome := Outcome.hangs i
          events := Event.setProgress 0 ::
            Event.recorderStart (videoBitsPerSecond s.resolutionScale) 30 :: r.1
          final := { s1 with progress := finalProgressOf 0 r.1 } }
      | none =>
        { outcome := Outcome.completed
            (exportFilename s.aspectRatio s.resolutionScale env.now)
          events := (Event.setProgress 0 ::
            Event.recorderStart (videoBitsPerSecond s.resolutionScale) 30 :: r.1) ++
            [Event.recorderStop]
          final := { s1 with progress := finalProgressOf 0 r.1, isExporting := false } }
    else
      { outcome := Outcome.errored exportErrorMessage
        events := [Event.setProgress 0]
        final := { s1 with error := some exportErrorMessage, isExporting := false } }

/-- The events contributed by the slide at position `p.1` (slide `p.2`)
when its image loads; used to state the trace shape of a completed run. -/
def slideBlock (env : Env) (narrs : List NarrationSegment) (cw ch n : Nat)
    (p : Nat × SlideData) : List Event :=
  match env.imgDims p.2.image with
  | some (iw, ih) =>
    Event.setProgress (progressAt p.1 n) :: Event.draw (drawOp cw ch iw ih) ::
      slideWaitEvents narrs p.2.index
  | none => []

/-- The values carried by the `setProgress` events of a trace, in order. -/
def progressValues (evts : List Event) : List Nat :=
  evts.filterMap (fun e => match e with | Event.setProgress p => some p | _ => none)

/-- The base-dimension table as the claims state it
(16:9 → 1280×720, 9:16 → 720×1280, 1:1 → 1080×1080, 4:3 → 1024×768),
for comparison with `baseDims` from the source. -/
def claimBaseDims : AspectRatio → Nat × Nat
  | AspectRatio.r16x9 => (1280, 720)
  | AspectRatio.r9x16 => (720, 1280)
  | AspectRatio.r1x1 => (1080, 1080)
  | AspectRatio.r4x3 => (1024, 768)

/-- The aspect-ratio token of the claimed filename pattern: the configured
aspect ratio with `':'` replaced. -/
def claimAspectToken : AspectRatio → String
  | AspectRatio.r16x9 => "16x9"
  | AspectRatio.r9x16 => "9x16"
  | AspectRatio.r1x1 => "1x1"
  | AspectRatio.r4x3 => "4x3"

/-- The filename pattern exactly as the claim states it:
`SlideStream_<aspectRatioToken>_<scale>x_<unixTimeMillis>.<ext>`. -/
def claimFilename (ar : AspectRatio) (scale : Nat) (timeMs : Nat) (ext : String) : String :=
  "SlideStream_" ++ claimAspectToken ar ++ "_" ++ toString scale ++ "x_" ++
    toString timeMs ++ "." ++ ext

/-- The amended filename pattern, as the code actually produces it:
`SlideStream_Concatenated_<aspectRatioToken>_<scale>x_<unixTimeMillis>.webm`. -/
def amendedFilename (ar : AspectRatio) (scale : Nat) (timeMs : Nat) : String :=
  "SlideStream_Concatenated_" ++ claimAspectToken ar ++ "_" ++ toString scale ++ "x_" ++
    toString timeMs ++ ".webm"

/-- Concrete decoded audio buffer used by the witnesses (2 s at 24 kHz). -/
def bufA : AudioBuffer := ⟨24000, 48000, 1⟩

/-- Three concrete slides (deliberately listed out of index order). -/
def slidesFix : List SlideData :=
  [⟨2, "img2", "t2"⟩, ⟨0, "img0", "t0"⟩, ⟨1, "img1", "t1"⟩]

/-- Concrete narrations: decoded audio for slides 0 and 1, none for 2. -/
def narrsFix : List NarrationSegment :=
  [⟨0, "s0", some bufA⟩, ⟨1, "s1", some bufA⟩, ⟨2, "s2", none⟩]

/-- Environment in which every image fires `load` (at 800×600) and the
canvas context is available. -/
def envOk : Env :=
  { imgDims := fun src =>
      if src = "img0" then some (800, 600)
      else if src = "img1" then some (800, 600)
      else if src = "img2" then some (800, 600)
      else none
    ctxOk := true
    now := 1700000000000 }

/-- Environment in which the `load` event of `"img1"` never fires (the
image fails to decode); all other images load. -/
def envFail : Env :=
  { imgDims := fun src =>
      if src = "img1" then none
      else if src = "img0" then some (800, 600)
      else if src = "img2" then some (800, 600)
      else none
    ctxOk := true
    now := 1700000000000 }

/-- Concrete pre-export application state with three slides and three
narrations. -/
def stateFix : AppState :=
  { slides := slidesFix, narrations := narrsFix, aspectRatio := AspectRatio.r16x9,
    resolutionScale := 1, isExporting := false, progress := 0, error := none }

/-- Concrete state with zero slides (the guard case). -/
def stateNoSlides : AppState :=
  { slides := [], narrations := narrsFix, aspectRatio := AspectRatio.r16x9,
    resolutionScale := 4, isExporting := false, progress := 37, error := none }

/-- `Math.floor((i / n) * 100)` over exact rationals is natural-number
division `i * 100 / n` (also for `n = 0`, where both sides are `0`). -/
theorem progressAt_eq (i n : ℕ) : progressAt i n = i * 100 / n := by
  unfold progressAt
  rw [div_mul_eq_mul_div]
  rw [show ((i : ℚ) * 100) = ((i * 100 : ℕ) : ℚ) by push_cast; ring]
  exact Nat.floor_div_eq_div (i * 100) n

/-- When every remaining image fires its `load` event, the loop runs to the
end and its trace is the concatenation of the per-slide blocks. -/
theorem processSlides_of_loads (env : Env) (narrs : List NarrationSegment) (cw ch n : Nat) :
    ∀ (l : List SlideData) (i : Nat), (∀ sl ∈ l, (env.imgDims sl.image).isSome = true) →
      processSlides env narrs cw ch n l i =
        (((List.enumFrom i l).map (slideBlock env narrs cw ch n)).flatten, none)
  | [], i, _ => by simp [processSlides, List.enumFrom]
  | sl :: rest, i, h => by
    obtain ⟨⟨iw, ih⟩, hd⟩ :=
      Option.isSome_iff_exists.mp (h sl (List.mem_cons_self _ _))
    have hrec := processSlides_of_loads env narrs cw ch n rest (i + 1)
      (fun x hx => h x (List.mem_cons_of_mem _ hx))
    simp [processSlides, hd, hrec, List.enumFrom, slideBlock]

/-- When some remaining image never fires `load`, the loop suspends
forever at some position. -/
theorem processSlides_hangs (env : Env) (narrs : List NarrationSegment) (cw ch n : Nat) :
    ∀ (l : List SlideData) (i : Nat), (∃ sl ∈ l, env.imgDims sl.image = none) →
      ∃ j, (processSlides env narrs cw ch n l i).2 = some j
  | [], _, h => absurd h (by simp)
  | sl :: rest, i, h => by
    cases hd : env.imgDims sl.image with
    | none => exact ⟨i, by simp [processSlides, hd]⟩
    | some p =>
      obtain ⟨x, hx, hnone⟩ := h
      rcases List.mem_cons.mp hx with rfl | hx'
      · rw [hd] at hnone; cases hnone
      · obtain ⟨j, hj⟩ := processSlides_hangs env narrs cw ch n rest (i + 1) ⟨x, hx', hnone⟩
        exact ⟨j, by cases p with | mk iw ih => simp [processSlides, hd, hj]⟩

/-- If no narration with the given slide index carries decoded audio, the
per-slide wait is the fixed 3000 ms timer. -/
theorem slideWaitEvents_timer (narrs : List NarrationSegment) (idx : Int)
    (h : ¬ ∃ seg ∈ narrs, seg.slideIndex = idx ∧ seg.audioBuffer ≠ none) :
    slideWaitEvents narrs idx = [Event.waitTimerMs 3000] := by
  unfold slideWaitEvents
  cases hf : narrs.find? (fun seg => seg.slideIndex == idx) with
  | none => rfl
  | some seg =>
    have hmem := List.mem_of_find?_eq_some hf
    have hpred := List.find?_some hf
    have hidx : seg.slideIndex = idx := by simpa using hpred
    obtain ⟨si, sc, ab⟩ := seg
    cases ab with
    | none => rfl
    | some buf => exact absurd ⟨⟨si, sc, some buf⟩, hmem, hidx, by simp⟩ h

/-- With pairwise-distinct narration indices, `Array.prototype.find` on the
slide index returns the unique matching segment. -/
theorem find?_slideIndex_eq :
    ∀ (narrs : List NarrationSegment) (idx : Int) (seg : NarrationSegment),
      (narrs.map NarrationSegment.slideIndex).Nodup → seg ∈ narrs → seg.slideIndex = idx →
      narrs.find? (fun s => s.slideIndex == idx) = some seg
  | [], _, _, _, hm, _ => absurd hm (by simp)
  | head :: rest, idx, seg, hnd, hm, hi => by
    have hnd' : (NarrationSegment.slideIndex head ∉ rest.map NarrationSegment.slideIndex) ∧
        (rest.map NarrationSegment.slideIndex).Nodup :=
      List.nodup_cons.mp (by simpa using hnd)
    rcases List.mem_cons.mp hm with rfl | hm'
    · exact List.find?_cons_of_pos _ (by simp [hi])
    · have hne : head.slideIndex ≠ idx := by
        intro he
        refine hnd'.1 ?_
        rw [he, ← hi]
        exact List.mem_map_of_mem _ hm'
      rw [List.find?_cons_of_neg _ (by simp [hne])]
      exact find?_slideIndex_eq rest idx seg hnd'.2 hm' hi

/-- With pairwise-distinct narration indices, a narration with decoded
audio for the given slide index makes the per-slide wait start that buffer
and await its `ended` event. -/
theorem slideWaitEvents_audio (narrs : List NarrationSegment) (idx : Int)
    (seg : NarrationSegment) (buf : AudioBuffer)
    (hnd : (narrs.map NarrationSegment.slideIndex).Nodup) (hm : seg ∈ narrs)
    (hi : seg.slideIndex = idx) (hb : seg.audioBuffer = some buf) :
    slideWaitEvents narrs idx = [Event.startAudio buf, Event.waitAudioEnd buf] := by
  simp [slideWaitEvents, find?_slideIndex_eq narrs idx seg hnd hm hi, hb]

/-- The per-slide wait emits no progress events. -/
theorem progressValues_slideWaitEvents (narrs : List NarrationSegment) (idx : Int) :
    progressValues (slideWaitEvents narrs idx) = [] := by
  unfold slideWaitEvents
  cases hf : narrs.find? (fun seg => seg.slideIndex == idx) with
  | none => rfl
  | some seg =>
    obtain ⟨si, sc, ab⟩ := seg
    cases ab <;> rfl

/-- `progressValues` distributes over concatenation. -/
theorem progressValues_append (l1 l2 : List Event) :
    progressValues (l1 ++ l2) = progressValues l1 ++ progressValues l2 := by
  simp [progressValues, List.filterMap_append]

/-- A progress event contributes its value to `progressValues`. -/
theorem progressValues_cons_setProgress (p : Nat) (rest : List Event) :
    progressValues (Event.setProgress p :: rest) = p :: progressValues rest := by
  simp [progressValues]

/-- A draw event contributes nothing to `progressValues`. -/
theorem progressValues_cons_draw (op : DrawOp) (rest : List Event) :
    progressValues (Event.draw op :: rest) = progressValues rest := by
  simp [progressValues]

/-- The progress values of the per-slide blocks are exactly the boundary
values `progressAt i n` in loop order. -/
theorem progressValues_blocks (env : Env) (narrs : List NarrationSegment) (cw ch n : Nat) :
    ∀ (l : List SlideData) (i : Nat), (∀ sl ∈ l, (env.imgDims sl.image).isSome = true) →
      progressValues (((List.enumFrom i l).map (slideBlock env narrs cw ch n)).flatten) =
        (List.range' i l.length).map (fun j => progressAt j n)
  | [], i, _ => by simp [List.enumFrom, progressValues, List.range']
  | sl :: rest, i, h => by
    obtain ⟨⟨iw, ih⟩, hd⟩ :=
      Option.isSome_iff_exists.mp (h sl (List.mem_cons_self _ _))
    have hrec := progressValues_blocks env narrs cw ch n rest (i + 1)
      (fun x hx => h x (List.mem_cons_of_mem _ hx))
    simp [List.enumFrom, List.range', slideBlock, hd, progressValues_append, hrec,
      progressValues_cons_setProgress, progressValues_cons_draw,
      progressValues_slideWaitEvents]

/-- Sorting does not change membership. -/
theorem mem_sortSlides (l : List SlideData) (sl : SlideData) :
    sl ∈ sortSlides l ↔ sl ∈ l :=
  (List.perm_insertionSort _ l).mem_iff

/-- Full-run trace: when the guard passes, the canvas context is available
and every slide's image fires `load`, the export emits the initial progress
reset, starts the recorder, runs the per-slide blocks of the sorted slides
strictly in order, and stops the recorder. -/
theorem handleExportBrowser_events_of_loads (env : Env) (s : AppState)
    (h1 : s.slides ≠ []) (h2 : s.narrations ≠ []) (hctx : env.ctxOk = true)
    (hload : ∀ sl ∈ s.slides, (env.imgDims sl.image).isSome = true) :
    (handleExportBrowser env s).events =
      Event.setProgress 0 ::
        Event.recorderStart (videoBitsPerSecond s.resolutionScale) 30 ::
        (((sortSlides s.slides).enum.map
            (slideBlock env s.narrations
              (canvasDims s.aspectRatio s.resolutionScale).1
              (canvasDims s.aspectRatio s.resolutionScale).2
              (sortSlides s.slides).length)).flatten ++ [Event.recorderStop]) := by
  have hload' : ∀ sl ∈ sortSlides s.slides, (env.imgDims sl.image).isSome = true :=
    fun sl hsl => hload sl ((mem_sortSlides s.slides sl).mp hsl)
  have hp := processSlides_of_loads env s.narrations
    (canvasDims s.aspectRatio s.resolutionScale).1
    (canvasDims s.aspectRatio s.resolutionScale).2
    (sortSlides s.slides).length (sortSlides s.slides) 0 hload'
  simp [handleExportBrowser, List.length_eq_zero, h1, h2, hctx, hp, List.enum]

/-- Full-run outcome: under the same hypotheses the run completes and
offers the file under the generated name, and the exporting flag is clear
afterwards. -/
theorem handleExportBrowser_completes (env : Env) (s : AppState)
    (h1 : s.slides ≠ []) (h2 : s.narrations ≠ []) (hctx : env.ctxOk = true)
    (hload : ∀ sl ∈ s.slides, (env.imgDims sl.image).isSome = true) :
    (handleExportBrowser env s).outcome =
      Outcome.completed (exportFilename s.aspectRatio s.resolutionScale env.now) ∧
    (handleExportBrowser env s).final.isExporting = false := by
  have hload' : ∀ sl ∈ sortSlides s.slides, (env.imgDims sl.image).isSome = true :=
    fun sl hsl => hload sl ((mem_sortSlides s.slides sl).mp hsl)
  have hp := processSlides_of_loads env s.narrations
    (canvasDims s.aspectRatio s.resolutionScale).1
    (canvasDims s.aspectRatio s.resolutionScale).2
    (sortSlides s.slides).length (sortSlides s.slides) 0 hload'
  refine ⟨?_, ?_⟩ <;>
    simp [handleExportBrowser, List.length_eq_zero, h1, h2, hctx, hp]

/-- Hang-run: when the guard passes, the context is available, but some
slide's image never fires `load`, the run suspends forever: the outcome is
`hangs`, the exporting flag stays set and the error field is untouched. -/
theorem handleExportBrowser_hangs (env : Env) (s : AppState)
    (h1 : s.slides ≠ []) (h2 : s.narrations ≠ []) (hctx : env.ctxOk = true)
    (hfail : ∃ sl ∈ s.slides, env.imgDims sl.image = none) :
    (∃ j, (handleExportBrowser env s).outcome = Outcome.hangs j) ∧
    (handleExportBrowser env s).final.isExporting = true ∧
    (handleExportBrowser env s).final.error = s.error := by
  obtain ⟨sl, hsl, hnone⟩ := hfail
  obtain ⟨j, hj⟩ := processSlides_hangs env s.narrations
    (canvasDims s.aspectRatio s.resolutionScale).1
    (canvasDims s.aspectRatio s.resolutionScale).2
    (sortSlides s.slides).length (sortSlides s.slides) 0
    ⟨sl, (mem_sortSlides s.slides sl).mpr hsl, hnone⟩
  refine ⟨⟨j, ?_⟩, ?_, ?_⟩ <;>
    simp [handleExportBrowser, List.length_eq_zero, h1, h2, hctx, hj]

/-- The scaled image width never exceeds the canvas width. -/
theorem mul_fitScale_le_width (cw ch iw ih : Nat) (hiw : 0 < iw) :
    (iw : ℚ) * fitScale cw ch iw ih ≤ (cw : ℚ) := by
  have hiw' : (0 : ℚ) < iw := by exact_mod_cast hiw
  have h1 : fitScale cw ch iw ih ≤ (cw : ℚ) / iw := min_le_left _ _
  calc (iw : ℚ) * fitScale cw ch iw ih ≤ (iw : ℚ) * ((cw : ℚ) / iw) :=
        mul_le_mul_of_nonneg_left h1 (le_of_lt hiw')
    _ = (cw : ℚ) := by field_simp

/-- The scaled image height never exceeds the canvas height. -/
theorem mul_fitScale_le_height (cw ch iw ih : Nat) (hih : 0 < ih) :
    (ih : ℚ) * fitScale cw ch iw ih ≤ (ch : ℚ) := by
  have hih' : (0 : ℚ) < ih := by exact_mod_cast hih
  have h1 : fitScale cw ch iw ih ≤ (ch : ℚ) / ih := min_le_right _ _
  calc (ih : ℚ) * fitScale cw ch iw ih ≤ (ih : ℚ) * ((ch : ℚ) / ih) :=
        mul_le_mul_of_nonneg_left h1 (le_of_lt hih')
    _ = (ch : ℚ) := by field_simp

/-- The boundary progress values are non-decreasing in the slide position. -/
theorem pairwise_le_progress (n len : Nat) :
    List.Pairwise (· ≤ ·) ((List.range len).map (fun i => i * 100 / n)) := by
  have h1 : List.Pairwise (· < ·) (List.range len) := List.pairwise_lt_range len
  exact h1.map _ (fun a b hab =>
    Nat.div_le_div_right (Nat.mul_le_mul_right 100 (Nat.le_of_lt hab)))

/-- A recorder-start event contributes nothing to `progressValues`. -/
theorem progressValues_cons_recorderStart (b f : Nat) (rest : List Event) :
    progressValues (Event.recorderStart b f :: rest) = progressValues rest := by
  simp [progressValues]

/-- The recorder-stop event contributes nothing to `progressValues`. -/
theorem progressValues_recorderStop :
    progressValues [Event.recorderStop] = [] := rfl

/-- C5: for every slide list, regardless of insertion order, the loop input
`sortSlides` is a permutation of the slides sorted by ascending index, so
the i-th slide processed has the i-th smallest index. -/
theorem C5_slides_processed_in_index_order (l : List SlideData) :
    List.Perm (sortSlides l) l ∧
    ((sortSlides l).map (fun sl => sl.index)).Pairwise (· ≤ ·) ∧
    (sortSlides l).length = l.length := by
  haveI ht : IsTotal SlideData (fun a b => a.index ≤ b.index) :=
    ⟨fun a b => Int.le_total a.index b.index⟩
  haveI htr : IsTrans SlideData (fun a b => a.index ≤ b.index) :=
    ⟨fun a b c hab hbc => le_trans hab hbc⟩
  refine ⟨List.perm_insertionSort _ l, ?_, (List.perm_insertionSort _ l).length_eq⟩
  rw [List.pairwise_map]
  exact List.sorted_insertionSort _ l

/-- C6: the output canvas resolution is the aspect ratio's fixed base
dimensions (as tabulated in the claim), both multiplied by the resolution
scale; in particular 9:16 at scale 2 is 1440×2560. -/
theorem C6_canvas_resolution :
    (∀ ar scale, canvasDims ar scale =
      ((claimBaseDims ar).1 * scale, (claimBaseDims ar).2 * scale)) ∧
    canvasDims AspectRatio.r9x16 2 = (1440, 2560) := by
  constructor
  · intro ar scale
    cases ar <;> rfl
  · rfl

/-- C7: the recorder's video bitrate is `min(12000000 · scale², 10⁸)` bits
per second, monotonically non-decreasing in the scale and never above the
100 Mb/s cap (proved for every natural scale, hence for scales 1–4). -/
theorem C7_bitrate_policy :
    (∀ scale, videoBitsPerSecond scale = min (12000000 * scale ^ 2) 100000000) ∧
    (∀ s t, s ≤ t → videoBitsPerSecond s ≤ videoBitsPerSecond t) ∧
    (∀ scale, videoBitsPerSecond scale ≤ 100000000) := by
  refine ⟨fun scale => ?_, fun s t hst => ?_, fun scale => min_le_right _ _⟩
  · simp [videoBitsPerSecond, targetBitrate, pow_two, Nat.mul_assoc]
  · refine min_le_min ?_ le_rfl
    unfold targetBitrate
    exact Nat.mul_le_mul (Nat.mul_le_mul_left 12000000 hst) hst

/-- C7 witness: the bitrate policy at concrete scales 2, 3 and 4. -/
theorem C7_bitrate_policy_witness :
    videoBitsPerSecond 2 = min (12000000 * 2 ^ 2) 100000000 ∧
    (2 ≤ 3 ∧ videoBitsPerSecond 2 ≤ videoBitsPerSecond 3) ∧
    videoBitsPerSecond 4 ≤ 100000000 :=
  ⟨C7_bitrate_policy.1 2, ⟨by decide, C7_bitrate_policy.2.1 2 3 (by decide)⟩,
    C7_bitrate_policy.2.2 4⟩

/-- C8: with zero slides (or zero narrations) the export returns
immediately as a guarded no-op: no events, no allocation, and the state —
including the exporting flag, progress and error — is unchanged. -/
theorem C8_zero_slides_guard (env : Env) (s : AppState)
    (h : s.slides = [] ∨ s.narrations = []) :
    handleExportBrowser env s =
      { outcome := Outcome.noOp, events := [], final := s } := by
  have hlen : s.slides.length = 0 ∨ s.narrations.length = 0 := by
    rcases h with h | h <;> simp [h]
  unfold handleExportBrowser
  rw [if_pos hlen]

/-- C8 witness: the guard at a concrete zero-slide state. -/
theorem C8_zero_slides_guard_witness :
    stateNoSlides.slides = [] ∧
    handleExportBrowser envOk stateNoSlides =
      { outcome := Outcome.noOp, events := [], final := stateNoSlides } :=
  ⟨rfl, C8_zero_slides_guard envOk stateNoSlides (Or.inl rfl)⟩

/-- C9: the frame renderer fills the whole canvas with the fixed background
color, scales the image uniformly by `min(cw/iw, ch/ih)`, centers it on
both axes, and the scaled image lies fully inside the canvas. -/
theorem C9_letterbox_renderer (cw ch iw ih : Nat) (hiw : 0 < iw) (hih : 0 < ih) :
    (drawOp cw ch iw ih).fillStyle = "#0f172a" ∧
    (drawOp cw ch iw ih).fillX = 0 ∧
    (drawOp cw ch iw ih).fillY = 0 ∧
    (drawOp cw ch iw ih).fillW = (cw : ℚ) ∧
    (drawOp cw ch iw ih).fillH = (ch : ℚ) ∧
    (drawOp cw ch iw ih).imgX = (cw : ℚ) / 2 - (iw : ℚ) * fitScale cw ch iw ih / 2 ∧
    (drawOp cw ch iw ih).imgY = (ch : ℚ) / 2 - (ih : ℚ) * fitScale cw ch iw ih / 2 ∧
    (drawOp cw ch iw ih).imgW = (iw : ℚ) * fitScale cw ch iw ih ∧
    (drawOp cw ch iw ih).imgH = (ih : ℚ) * fitScale cw ch iw ih ∧
    0 ≤ (drawOp cw ch iw ih).imgX ∧
    0 ≤ (drawOp cw ch iw ih).imgY ∧
    (drawOp cw ch iw ih).imgX + (drawOp cw ch iw ih).imgW ≤ (cw : ℚ) ∧
    (drawOp cw ch iw ih).imgY + (drawOp cw ch iw ih).imgH ≤ (ch : ℚ) := by
  have hw := mul_fitScale_le_width cw ch iw ih hiw
  have hh := mul_fitScale_le_height cw ch iw ih hih
  have hx2 : ((iw : ℚ) / 2) * fitScale cw ch iw ih =
      ((iw : ℚ) * fitScale cw ch iw ih) / 2 := by ring
  have hy2 : ((ih : ℚ) / 2) * fitScale cw ch iw ih =
      ((ih : ℚ) * fitScale cw ch iw ih) / 2 := by ring
  refine ⟨rfl, rfl, rfl, rfl, rfl, ?_, ?_, rfl, rfl, ?_, ?_, ?_, ?_⟩
  · show (cw : ℚ) / 2 - ((iw : ℚ) / 2) * fitScale cw ch iw ih =
      (cw : ℚ) / 2 - (iw : ℚ) * fitScale cw ch iw ih / 2
    ring
  · show (ch : ℚ) / 2 - ((ih : ℚ) / 2) * fitScale cw ch iw ih =
      (ch : ℚ) / 2 - (ih : ℚ) * fitScale cw ch iw ih / 2
    ring
  · show (0 : ℚ) ≤ (cw : ℚ) / 2 - ((iw : ℚ) / 2) * fitScale cw ch iw ih
    rw [hx2]
    linarith [hw]
  · show (0 : ℚ) ≤ (ch : ℚ) / 2 - ((ih : ℚ) / 2) * fitScale cw ch iw ih
    rw [hy2]
    linarith [hh]
  · show (cw : ℚ) / 2 - ((iw : ℚ) / 2) * fitScale cw ch iw ih +
      (iw : ℚ) * fitScale cw ch iw ih ≤ (cw : ℚ)
    rw [hx2]
    linarith [hw]
  · show (ch : ℚ) / 2 - ((ih : ℚ) / 2) * fitScale cw ch iw ih +
      (ih : ℚ) * fitScale cw ch iw ih ≤ (ch : ℚ)
    rw [hy2]
    linarith [hh]

/-- C9 witness: the renderer contract at a concrete 1280×720 canvas and a
640×480 image. -/
theorem C9_letterbox_renderer_witness :
    0 < 640 ∧ 0 < 480 ∧
    0 ≤ (drawOp 1280 720 640 480).imgX ∧
    (drawOp 1280 720 640 480).imgX + (drawOp 1280 720 640 480).imgW ≤ (1280 : ℚ) :=
  ⟨by decide, by decide,
    (C9_letterbox_renderer 1280 720 640 480 (by decide) (by decide)).2.2.2.2.2.2.2.2.2.1,
    (C9_letterbox_renderer 1280 720 640 480 (by decide) (by decide)).2.2.2.2.2.2.2.2.2.2.2.1⟩

/-- C10 counterexample: at aspect ratio 16:9, scale 4, time 0, the produced
filename is not of the claimed form `SlideStream_<token>_<scale>x_<time>.<ext>`:
it carries an extra `Concatenated_` segment right after `SlideStream_`. -/
theorem C10_filename_counterexample :
    exportFilename AspectRatio.r16x9 4 0 ≠ claimFilename AspectRatio.r16x9 4 0 "webm" ∧
    (exportFilename AspectRatio.r16x9 4 0).take 25 = "SlideStream_Concatenated_" ∧
    (claimFilename AspectRatio.r16x9 4 0 "webm").take 25 = "SlideStream_16x9_4x_0.web" := by
  refine ⟨by decide, by decide, by decide⟩

/-- C10 amended: the filename follows the pattern
`SlideStream_Concatenated_<aspectRatioToken>_<scale>x_<unixTimeMillis>.webm`,
where the token is the aspect ratio with `':'` replaced by `'x'`. -/
theorem C10_filename_amended (ar : AspectRatio) (scale timeMs : Nat) :
    exportFilename ar scale timeMs = amendedFilename ar scale timeMs := by
  cases ar <;> rfl

/-- C1: with a non-empty slide list (guard satisfied, context available,
every image loading, narration indices unique) the export trace is the
strictly sequential concatenation of per-slide blocks in sorted order;
each block draws the slide's frame after reporting progress and then
waits: on the playback's natural end event when a narration with decoded
audio exists for the slide's index, and on the fixed 3000 ms timer
otherwise; the next block starts only after that wait. -/
theorem C1_sequential_concatenation (env : Env) (s : AppState)
    (h1 : s.slides ≠ []) (h2 : s.narrations ≠ []) (hctx : env.ctxOk = true)
    (hload : ∀ sl ∈ s.slides, (env.imgDims sl.image).isSome = true)
    (hnd : (s.narrations.map NarrationSegment.slideIndex).Nodup) :
    ((handleExportBrowser env s).events =
      Event.setProgress 0 ::
        Event.recorderStart (videoBitsPerSecond s.resolutionScale) 30 ::
        (((sortSlides s.slides).enum.map
            (slideBlock env s.narrations
              (canvasDims s.aspectRatio s.resolutionScale).1
              (canvasDims s.aspectRatio s.resolutionScale).2
              (sortSlides s.slides).length)).flatten ++ [Event.recorderStop])) ∧
    (∀ cw ch n p iw ih, env.imgDims p.2.image = some (iw, ih) →
        slideBlock env s.narrations cw ch n p =
          Event.setProgress (progressAt p.1 n) :: Event.draw (drawOp cw ch iw ih) ::
            slideWaitEvents s.narrations p.2.index) ∧
    (∀ idx, (¬ ∃ seg ∈ s.narrations, seg.slideIndex = idx ∧ seg.audioBuffer ≠ none) →
        slideWaitEvents s.narrations idx = [Event.waitTimerMs 3000]) ∧
    (∀ idx seg buf, seg ∈ s.narrations → seg.slideIndex = idx →
        seg.audioBuffer = some buf →
        slideWaitEvents s.narrations idx =
          [Event.startAudio buf, Event.waitAudioEnd buf]) :=
  ⟨handleExportBrowser_events_of_loads env s h1 h2 hctx hload,
    fun cw ch n p iw ih hd => by simp [slideBlock, hd],
    fun idx h => slideWaitEvents_timer s.narrations idx h,
    fun idx seg buf hm hi hb =>
      slideWaitEvents_audio s.narrations idx seg buf hnd hm hi hb⟩

/-- C1 witness: the sequential trace at the concrete three-slide fixture. -/
theorem C1_sequential_concatenation_witness :
    (stateFix.slides ≠ [] ∧ stateFix.narrations ≠ [] ∧ envOk.ctxOk = true ∧
      (∀ sl ∈ stateFix.slides, (envOk.imgDims sl.image).isSome = true) ∧
      (stateFix.narrations.map NarrationSegment.slideIndex).Nodup) ∧
    (((handleExportBrowser envOk stateFix).events =
      Event.setProgress 0 ::
        Event.recorderStart (videoBitsPerSecond stateFix.resolutionScale) 30 ::
        (((sortSlides stateFix.slides).enum.map
            (slideBlock envOk stateFix.narrations
              (canvasDims stateFix.aspectRatio stateFix.resolutionScale).1
              (canvasDims stateFix.aspectRatio stateFix.resolutionScale).2
              (sortSlides stateFix.slides).length)).flatten ++ [Event.recorderStop])) ∧
    (∀ cw ch n p iw ih, envOk.imgDims p.2.image = some (iw, ih) →
        slideBlock envOk stateFix.narrations cw ch n p =
          Event.setProgress (progressAt p.1 n) :: Event.draw (drawOp cw ch iw ih) ::
            slideWaitEvents stateFix.narrations p.2.index) ∧
    (∀ idx, (¬ ∃ seg ∈ stateFix.narrations, seg.slideIndex = idx ∧ seg.audioBuffer ≠ none) →
        slideWaitEvents stateFix.narrations idx = [Event.waitTimerMs 3000]) ∧
    (∀ idx seg buf, seg ∈ stateFix.narrations → seg.slideIndex = idx →
        seg.audioBuffer = some buf →
        slideWaitEvents stateFix.narrations idx =
          [Event.startAudio buf, Event.waitAudioEnd buf])) :=
  ⟨⟨by decide, by decide, by decide, by decide, by decide⟩,
    C1_sequential_concatenation envOk stateFix (by decide) (by decide) (by decide)
      (by decide) (by decide)⟩

/-- C2: behavior of the code at the claim's failing input (three slides,
slide index 1's image fails to decode, decoded audio present): the run does
NOT transition to an error state — it suspends forever at sorted position 1
with the exporting flag still set and no error message stored, contradicting
the claimed Errored transition but confirming the spec's stated intent for
decode failures cannot be met by this code. -/
theorem C2_decode_failure_behavior :
    (handleExportBrowser envFail stateFix).outcome = Outcome.hangs 1 ∧
    (handleExportBrowser envFail stateFix).final.isExporting = true ∧
    (handleExportBrowser envFail stateFix).final.error = none := by
  decide

/-- C3: the image-load suspension point resolves only on the `load` event;
whenever some slide's image never fires `load` (and the guard passed and
the context was available), the run hangs: it reaches neither the finalize
path nor the catch path, the exporting flag stays set and the error field
is untouched. -/
theorem C3_image_failure_hangs (env : Env) (s : AppState)
    (h1 : s.slides ≠ []) (h2 : s.narrations ≠ []) (hctx : env.ctxOk = true)
    (hfail : ∃ sl ∈ s.slides, env.imgDims sl.image = none) :
    (∃ j, (handleExportBrowser env s).outcome = Outcome.hangs j) ∧
    (∀ fn, (handleExportBrowser env s).outcome ≠ Outcome.completed fn) ∧
    (∀ msg, (handleExportBrowser env s).outcome ≠ Outcome.errored msg) ∧
    (handleExportBrowser env s).final.isExporting = true ∧
    (handleExportBrowser env s).final.error = s.error := by
  obtain ⟨⟨j, hj⟩, hflag, herr⟩ := handleExportBrowser_hangs env s h1 h2 hctx hfail
  exact ⟨⟨j, hj⟩,
    fun fn h => Outcome.noConfusion (hj.symm.trans h),
    fun msg h => Outcome.noConfusion (hj.symm.trans h),
    hflag, herr⟩

/-- C3 witness: the hang at the concrete fixture where slide 1's image
never loads. -/
theorem C3_image_failure_hangs_witness :
    (stateFix.slides ≠ [] ∧ stateFix.narrations ≠ [] ∧ envFail.ctxOk = true ∧
      (∃ sl ∈ stateFix.slides, envFail.imgDims sl.image = none)) ∧
    ((∃ j, (handleExportBrowser envFail stateFix).outcome = Outcome.hangs j) ∧
    (∀ fn, (handleExportBrowser envFail stateFix).outcome ≠ Outcome.completed fn) ∧
    (∀ msg, (handleExportBrowser envFail stateFix).outcome ≠ Outcome.errored msg) ∧
    (handleExportBrowser envFail stateFix).final.isExporting = true ∧
    (handleExportBrowser envFail stateFix).final.error = stateFix.error) :=
  ⟨⟨by decide, by decide, by decide, by decide⟩,
    C3_image_failure_hangs envFail stateFix (by decide) (by decide) (by decide)
      (by decide)⟩

/-- C4: the progress values of a full run are the initial reset followed by
`floor(i / N × 100) = i * 100 / N` for `i = 0, …, N − 1` in order (`N` the
number of slides); the sequence is monotonically non-decreasing; the
boundary value is reported at the head of each slide's block, before that
slide's frame is drawn. -/
theorem C4_progress_reporting (env : Env) (s : AppState)
    (h1 : s.slides ≠ []) (h2 : s.narrations ≠ []) (hctx : env.ctxOk = true)
    (hload : ∀ sl ∈ s.slides, (env.imgDims sl.image).isSome = true) :
    (progressValues (handleExportBrowser env s).events =
      0 :: (List.range s.slides.length).map (fun i => i * 100 / s.slides.length)) ∧
    List.Pairwise (· ≤ ·) (progressValues (handleExportBrowser env s).events) ∧
    (∀ i n, progressAt i n = i * 100 / n) ∧
    (∀ cw ch n p iw ih, env.imgDims p.2.image = some (iw, ih) →
        slideBlock env s.narrations cw ch n p =
          Event.setProgress (progressAt p.1 n) :: Event.draw (drawOp cw ch iw ih) ::
            slideWaitEvents s.narrations p.2.index) ∧
    ((handleExportBrowser env s).events =
      Event.setProgress 0 ::
        Event.recorderStart (videoBitsPerSecond s.resolutionScale) 30 ::
        (((sortSlides s.slides).enum.map
            (slideBlock env s.narrations
              (canvasDims s.aspectRatio s.resolutionScale).1
              (canvasDims s.aspectRatio s.resolutionScale).2
              (sortSlides s.slides).length)).flatten ++ [Event.recorderStop])) := by
  have hev := handleExportBrowser_events_of_loads env s h1 h2 hctx hload
  have hload' : ∀ sl ∈ sortSlides s.slides, (env.imgDims sl.image).isSome = true :=
    fun sl hsl => hload sl ((mem_sortSlides s.slides sl).mp hsl)
  have hpv := progressValues_blocks env s.narrations
    (canvasDims s.aspectRatio s.resolutionScale).1
    (canvasDims s.aspectRatio s.resolutionScale).2
    (sortSlides s.slides).length (sortSlides s.slides) 0 hload'
  have hlen : (sortSlides s.slides).length = s.slides.length :=
    (List.perm_insertionSort _ s.slides).length_eq
  have hmain : progressValues (handleExportBrowser env s).events =
      0 :: (List.range s.slides.length).map (fun i => i * 100 / s.slides.length) := by
    rw [hev, progressValues_cons_setProgress, progressValues_cons_recorderStart,
      progressValues_append, progressValues_recorderStop, List.append_nil]
    rw [show (sortSlides s.slides).enum = List.enumFrom 0 (sortSlides s.slides) from rfl]
    rw [hpv, ← List.range_eq_range', hlen]
    simp [progressAt_eq]
  refine ⟨hmain, ?_, progressAt_eq,
    fun cw ch n p iw ih hd => by simp [slideBlock, hd], hev⟩
  rw [hmain]
  exact List.Pairwise.cons (fun x _ => Nat.zero_le x)
    (pairwise_le_progress s.slides.length s.slides.length)

/-- C4 witness: the progress sequence at the concrete three-slide fixture:
0 (reset) then 0, 33, 66. -/
theorem C4_progress_reporting_witness :
    (stateFix.slides ≠ [] ∧ stateFix.narrations ≠ [] ∧ envOk.ctxOk = true ∧
      (∀ sl ∈ stateFix.slides, (envOk.imgDims sl.image).isSome = true)) ∧
    (progressValues (handleExportBrowser envOk stateFix).events =
      0 :: (List.range stateFix.slides.length).map
        (fun i => i * 100 / stateFix.slides.length)) ∧
    List.Pairwise (· ≤ ·) (progressValues (handleExportBrowser envOk stateFix).events) :=
  ⟨⟨by decide, by decide, by decide, by decide⟩,
    (C4_progress_reporting envOk stateFix (by decide) (by decide) (by decide)
      (by decide)).1,
    (C4_progress_reporting envOk stateFix (by decide) (by decide) (by decide)
      (by decide)).2.1⟩

end SlideStream
